import Mathlib

/-!
Verification of the Gas-EV price scraper (`Gas-EV-Prices.py`) against its
specification.  The Python program is shallowly embedded: DataFrames become
lists of rows of `Value`s, network I/O becomes explicit oracle arguments
(the response the remote side would give), and Python exceptions become
`Option`/`Except` results.  Python floats produced by parsing decimal price
strings are modelled exactly as scaled decimals (mantissa, scale), i.e.
`Value.num m k` denotes `m / 10^k`; no claim depends on binary rounding.
-/

/-- A cell value of a table: a string, an exact decimal number
(`num m k` denotes `m / 10^k`), or a missing value (Python `NaN`/`None`). -/
inductive Value where
  | str : String → Value
  | num : Int → Nat → Value
  | null : Value
deriving DecidableEq, Repr

/-- The rational denoted by a decimal value `m / 10^k`. -/
def decimalToRat (m : Int) (k : Nat) : ℚ :=
  (m : ℚ) / (10 : ℚ) ^ k

/-- A pandas DataFrame: ordered column names and row-major data. -/
structure DataFrame where
  cols : List String
  rows : List (List Value)
deriving DecidableEq, Repr

/-- Rectangularity: every row has exactly one entry per column. -/
def DataFrame.WF (df : DataFrame) : Prop :=
  ∀ r ∈ df.rows, r.length = df.cols.length

instance (df : DataFrame) : Decidable df.WF :=
  inferInstanceAs (Decidable (∀ r ∈ df.rows, r.length = df.cols.length))

/-- Characters stripped by Python's `str.strip()` (common ASCII whitespace). -/
def isPySpace (c : Char) : Bool :=
  c == ' ' || c == '\t' || c == '\n' || c == '\r' || c == '\x0b' || c == '\x0c'

/-- `str.strip()`: drop leading and trailing whitespace. -/
def pytrim (s : String) : String :=
  String.mk (((s.data.dropWhile isPySpace).reverse.dropWhile isPySpace).reverse)

/-- `str.replace('$', '')`: remove every dollar sign (single-character
pattern, so replace-all is a character filter). -/
def removeDollar (s : String) : String :=
  String.mk (s.data.filter (fun c => !(c == '$')))

/-- Numeric value of a digit string, most significant first. -/
def digitsToNat (cs : List Char) : Nat :=
  cs.foldl (fun n c => n * 10 + (c.toNat - 48)) 0

/-- All characters are ASCII digits. -/
def allDigits (cs : List Char) : Bool :=
  cs.all (fun c => c.isDigit)

/-- Python `float(s)` on plain decimal literals: optional sign, digits with
at most one decimal point, at least one digit; surrounding whitespace is
stripped.  Returns the exact decimal `(mantissa, scale)`.  (Exotic float
syntax — exponents, `inf`, `nan` — never arises from price strings and is
out of scope: such inputs are rejected, as are all non-numeric strings.) -/
def parseFloat (s : String) : Option (Int × Nat) :=
  let cs := (pytrim s).data
  let signed : Int × List Char :=
    match cs with
    | '-' :: r => (-1, r)
    | '+' :: r => (1, r)
    | _ => (1, cs)
  let intPart := signed.2.takeWhile (fun c => !(c == '.'))
  let rest := signed.2.dropWhile (fun c => !(c == '.'))
  match rest with
  | [] =>
    if allDigits intPart && !intPart.isEmpty then
      some (signed.1 * digitsToNat intPart, 0)
    else
      none
  | _ :: frac =>
    if allDigits intPart && allDigits frac && !(intPart.isEmpty && frac.isEmpty) then
      some (signed.1 * digitsToNat (intPart ++ frac), frac.length)
    else
      none

/-- Observable actions of the program: an HTTP GET of a URL, the gist
PATCH request, or a console diagnostic line. -/
inductive Event where
  | get : String → Event
  | patchGist : Event
  | log : String → Event
deriving DecidableEq, Repr

/-- The two hardcoded source URLs. -/
def gasUrl : String := "https://gasprices.aaa.com/todays-state-averages/"

def evUrl : String := "https://gasprices.aaa.com/ev-charging-prices/"

/-- The response the remote server would give to a GET. -/
structure FetchResult where
  status : Nat
  body : String
deriving DecidableEq, Repr

/-- `make_respectful_request`: one `requests.get`, then
`response.raise_for_status()`, which raises exactly for status codes in
400..599 (client and server errors).  Returns the list of requests issued
and either the body or the raised status. -/
def make_respectful_request (url : String) (r : FetchResult) :
    List Event × Except Nat String :=
  ([Event.get url],
    if 400 ≤ r.status ∧ r.status < 600 then Except.error r.status
    else Except.ok r.body)

/-- Outcome of the `requests.patch` call to the GitHub API, as the network
would deliver it: a response with status and the two URLs of interest, a
timeout, or another request exception. -/
inductive PatchOutcome where
  | response : Nat → String → String → PatchOutcome
  | timeout : PatchOutcome
  | netError : PatchOutcome
deriving DecidableEq, Repr

/-- Python truthiness of the token (`os.environ.get` result):
`None` and `""` are falsy. -/
def tokenTruthy (token : Option String) : Bool :=
  match token with
  | none => false
  | some s => !(s == "")

/-- The FIRST definition of `update_github_gist` (lines 32-38): guards on a
falsy token and returns `None`; with a truthy token the body simply ends,
also returning `None`.  It never performs a network call.  This definition
is dead code: Python rebinds the name at line 149.  Result is
(network call attempted, returned URL). -/
def update_github_gist_shadowed (_df : DataFrame) (token : Option String) :
    Bool × Option String :=
  if tokenTruthy token then (false, none) else (false, none)

/-- The SECOND, effective definition of `update_github_gist` (lines
149-200), which shadows the first: it builds the payload and always issues
the PATCH request — there is no token check.  On a 200 response it returns
the raw URL; on any other status, a timeout or a request exception it
returns `None`.  Result is (network call attempted, returned URL). -/
def update_github_gist (_df : DataFrame) (_token : Option String)
    (net : PatchOutcome) : Bool × Option String :=
  (true,
    match net with
    | PatchOutcome.response status _ rawUrl =>
      if status == 200 then some rawUrl else none
    | PatchOutcome.timeout => none
    | PatchOutcome.netError => none)

/-- A concrete merged table used in concrete evaluations. -/
def dfC1 : DataFrame :=
  ⟨["State", "Regular"], [[Value.str "CA", Value.num 450 2]]⟩

/-- C1: the claim says that with an absent or empty token the publisher
returns no URL and attempts no network call.  The effective
`update_github_gist` (the second definition, which shadows the guarded
first one) issues the PATCH request even when the token is `None` or `""`;
only the shadowed dead first definition behaves as the claim states.
Evaluated at the failing input: token absent (and token empty), with the
remote answering 401. -/
theorem update_github_gist_empty_token_still_calls_network :
    (update_github_gist dfC1 none (PatchOutcome.response 401 "" "")).1 = true ∧
    (update_github_gist dfC1 none (PatchOutcome.response 401 "" "")).2 = none ∧
    (update_github_gist dfC1 (some "") (PatchOutcome.response 401 "" "")).1 = true ∧
    update_github_gist_shadowed dfC1 none = (false, none) := by
  decide

/-- C4 counterexample: a 304 Not Modified response has a non-2xx status,
yet `raise_for_status` does not raise — the fetch succeeds, so not every
non-2xx status is treated as fatal. -/
theorem make_respectful_request_304_not_fatal :
    (make_respectful_request gasUrl ⟨304, "cached"⟩).2 = Except.ok "cached" ∧
    ¬(200 ≤ 304 ∧ 304 < 300) := by
  exact ⟨rfl, by decide⟩

/-- C4 amended: the fetcher issues exactly one GET request, and raises
exactly for the statuses 400..599 (4xx/5xx); every other status, including
3xx, is returned as success. -/
theorem make_respectful_request_one_get_4xx5xx_fatal (url : String)
    (r : FetchResult) :
    (make_respectful_request url r).1 = [Event.get url] ∧
    ((make_respectful_request url r).2 = Except.error r.status ↔
      400 ≤ r.status ∧ r.status < 600) := by
  constructor
  · rfl
  · constructor
    · intro h
      by_contra hc
      simp only [make_respectful_request, if_neg hc] at h
      exact Except.noConfusion h
    · intro h
      simp only [make_respectful_request, if_pos h]

/-- A table cell is either a header cell `<th>` or a data cell `<td>`. -/
inductive CellTag where
  | th : CellTag
  | td : CellTag
deriving DecidableEq, Repr

/-- A cell of the parsed HTML table, with its tag and text content. -/
structure Cell where
  tag : CellTag
  text : String
deriving DecidableEq, Repr

/-- The first `<table>` of the document, as BeautifulSoup sees it: a list
of `<tr>` rows, each a list of cells.  `soup.find('table')` yielding no
table is modelled by `Option.none` at the use site. -/
structure HtmlTable where
  trs : List (List Cell)
deriving DecidableEq, Repr

/-- `table.find_all('th')`: every `<th>` anywhere in the table, in document
order, its text stripped.  Header cells inside data rows are included. -/
def headersOf (t : HtmlTable) : List String :=
  ((t.trs.foldr (fun tr acc => tr ++ acc) []).filter
    (fun c => c.tag == CellTag.th)).map (fun c => pytrim c.text)

/-- `table.find_all('tr')[1:]` with `cells = tr.find_all(['td','th'])` and
`if cells:`: every row after the first that has at least one cell, as the
list of its stripped cell texts. -/
def rowsOf (t : HtmlTable) : List (List String) :=
  (t.trs.drop 1).filterMap
    (fun tr => if tr.isEmpty then none else some (tr.map (fun c => pytrim c.text)))

/-- Widest data row (pandas aligns list-of-lists data to this width,
padding shorter rows with `NaN`). -/
def maxWidth (rows : List (List String)) : Nat :=
  rows.foldr (fun r m => max r.length m) 0

/-- `pd.DataFrame(rows, columns=headers)`: with no rows, an empty frame
with the given columns; otherwise the data is aligned to the widest row
(shorter rows padded with `NaN`) and construction raises a `ValueError`
when the number of columns differs from that width. -/
def mkDataFrame (rows : List (List String)) (headers : List String) :
    Option DataFrame :=
  if rows.isEmpty then some ⟨headers, []⟩
  else if headers.length = maxWidth rows then
    some ⟨headers, rows.map
      (fun r => r.map Value.str ++ List.replicate (maxWidth rows - r.length) Value.null)⟩
  else none

/-- Sequential effectful map over `Option`: the semantics of a Python loop
that raises as soon as one element fails. -/
def mapOpt (f : α → Option β) : List α → Option (List β)
  | [] => some []
  | a :: as =>
    match f a, mapOpt f as with
    | some b, some bs => some (b :: bs)
    | _, _ => none

/-- Conversion of one cell by the fallback parser's cleaning loop
(`df[col] = df[col].str.replace('$','').astype(float)`): the `State`
column is left alone; elsewhere a string has its dollar signs removed and
must parse as a float (else the conversion raises); `NaN` (from row
padding) passes through `.str` and `astype(float)` as `NaN`; a non-string
value becomes `NaN` under the `.str` accessor. -/
def convertCol (c : String) (v : Value) : Option Value :=
  if c == "State" then some v
  else
    match v with
    | Value.str s =>
      (parseFloat (removeDollar s)).map (fun p => Value.num p.1 p.2)
    | Value.null => some Value.null
    | Value.num _ _ => some Value.null

/-- Convert every cell of a row, paired with its column name. -/
def convertRow (cols : List String) (row : List Value) : Option (List Value) :=
  mapOpt (fun p => convertCol p.1 p.2) (cols.zip row)

/-- The numeric-cleaning loop over the whole frame; any failing cell in a
non-`State` column raises, losing the entire table. -/
def convertNumericCols (df : DataFrame) : Option DataFrame :=
  (mapOpt (convertRow df.cols) df.rows).map (fun rs => ⟨df.cols, rs⟩)

/-- `extract_table_manually`: fails if the document has no `<table>`;
otherwise builds the frame from all `<th>` texts and the per-row cell
texts, then cleans the numeric columns.  `none` models a raised
exception. -/
def extract_table_manually (doc : Option HtmlTable) : Option DataFrame :=
  match doc with
  | none => none
  | some t => (mkDataFrame (rowsOf t) (headersOf t)).bind convertNumericCols

theorem mapOpt_get?_some {α β : Type} {f : α → Option β} :
    ∀ {l : List α} {l' : List β}, mapOpt f l = some l' →
      ∀ (i : Nat) (a : α), l.get? i = some a →
        ∃ b, f a = some b ∧ l'.get? i = some b := by
  intro l
  induction l with
  | nil =>
    intro l' _ i a ha
    simp [List.get?] at ha
  | cons x xs ih =>
    intro l' h i a ha
    cases hfx : f x with
    | none => simp [mapOpt, hfx] at h
    | some b =>
      cases hrec : mapOpt f xs with
      | none => simp [mapOpt, hfx, hrec] at h
      | some bs =>
        simp only [mapOpt, hfx, hrec] at h
        cases h
        cases i with
        | zero =>
          simp only [List.get?] at ha ⊢
          cases ha
          exact ⟨b, hfx, rfl⟩
        | succ n =>
          simp only [List.get?] at ha ⊢
          exact ih hrec n a ha

theorem mapOpt_eq_none {α β : Type} {f : α → Option β} :
    ∀ {l : List α} (i : Nat) (a : α), l.get? i = some a → f a = none →
      mapOpt f l = none := by
  intro l
  induction l with
  | nil =>
    intro i a ha
    simp [List.get?] at ha
  | cons x xs ih =>
    intro i a ha hfa
    cases i with
    | zero =>
      simp only [List.get?] at ha
      cases ha
      simp [mapOpt, hfa]
    | succ n =>
      simp only [List.get?] at ha
      have := ih n a ha hfa
      simp only [mapOpt, this]
      cases f x <;> rfl

theorem zip_get?_some {α β : Type} :
    ∀ (l₁ : List α) (l₂ : List β) (i : Nat) (a : α) (b : β),
      l₁.get? i = some a → l₂.get? i = some b →
        (l₁.zip l₂).get? i = some (a, b) := by
  intro l₁
  induction l₁ with
  | nil =>
    intro l₂ i a b ha
    simp [List.get?] at ha
  | cons x xs ih =>
    intro l₂ i a b ha hb
    cases l₂ with
    | nil => simp [List.get?] at hb
    | cons y ys =>
      cases i with
      | zero =>
        simp only [List.get?] at ha hb ⊢
        cases ha; cases hb
        rfl
      | succ n =>
        simp only [List.get?, List.zip_cons_cons] at ha hb ⊢
        exact ih ys n a b ha hb

/-- C5: if the fallback parser succeeds, then every cell of a non-`State`
column that held a string which, after removing the dollar sign, is a
numeric literal, comes out as exactly that decimal number (e.g.
`"$3.459"` becomes `3.459`, i.e. `num 3459 3`). -/
theorem fallback_strips_dollar_prefix (t : HtmlTable) (df0 df : DataFrame)
    (h0 : mkDataFrame (rowsOf t) (headersOf t) = some df0)
    (h : extract_table_manually (some t) = some df)
    (i j : Nat) (c s : String) (m : Int) (k : Nat)
    (hc : df0.cols.get? j = some c) (hcs : c ≠ "State")
    (hcell : (df0.rows.get? i).bind (fun r => r.get? j) = some (Value.str s))
    (hq : parseFloat (removeDollar s) = some (m, k)) :
    (df.rows.get? i).bind (fun r => r.get? j) = some (Value.num m k) := by
  simp only [extract_table_manually, h0, Option.some_bind] at h
  cases hm : mapOpt (convertRow df0.cols) df0.rows with
  | none => simp [convertNumericCols, hm] at h
  | some rs =>
    simp only [convertNumericCols, hm, Option.map_some'] at h
    cases h
    cases hr : df0.rows.get? i with
    | none =>
      rw [hr] at hcell
      simp at hcell
    | some r =>
      simp only [hr, Option.some_bind] at hcell
      obtain ⟨r', hconv, hrs⟩ := mapOpt_get?_some hm i r hr
      have hz := zip_get?_some df0.cols r j c (Value.str s) hc hcell
      obtain ⟨b, hb, hr'⟩ := mapOpt_get?_some hconv j (c, Value.str s) hz
      have hcsb : (c == "State") = false := by
        simp [hcs]
      simp only [convertCol, hcsb, Bool.false_eq_true, if_false, hq,
        Option.map_some'] at hb
      cases hb
      simp only [hrs, Option.some_bind]
      exact hr'

/-- The concrete table exercising C5: one good `$`-prefixed price. -/
def tbl5 : HtmlTable :=
  ⟨[[⟨CellTag.th, "State"⟩, ⟨CellTag.th, "Regular"⟩],
    [⟨CellTag.td, "TX"⟩, ⟨CellTag.td, "$3.459"⟩]]⟩

/-- C5 witness: on `tbl5` the cell `"$3.459"` of column `Regular` comes out
as the decimal `3.459` (`num 3459 3`). -/
theorem fallback_strips_dollar_prefix_witness :
    ((⟨["State", "Regular"],
        [[Value.str "TX", Value.num 3459 3]]⟩ : DataFrame).rows.get? 0).bind
      (fun r => r.get? 1) = some (Value.num 3459 3) :=
  fallback_strips_dollar_prefix tbl5
    ⟨["State", "Regular"], [[Value.str "TX", Value.str "$3.459"]]⟩
    ⟨["State", "Regular"], [[Value.str "TX", Value.num 3459 3]]⟩
    (by decide) (by decide) 0 1 "Regular" "$3.459" 3459 3
    (by decide) (by decide) (by decide) (by decide)

/-- The concrete table exercising C6: a good row (`TX`) followed by a row
whose price cell (`"abc"`) is not numeric. -/
def tbl6 : HtmlTable :=
  ⟨[[⟨CellTag.th, "State"⟩, ⟨CellTag.th, "Regular"⟩],
    [⟨CellTag.td, "TX"⟩, ⟨CellTag.td, "$3.10"⟩],
    [⟨CellTag.td, "CA"⟩, ⟨CellTag.td, "abc"⟩]]⟩

/-- C6 counterexample: the claim says a non-numeric cell is fatal for that
row only, the rest of the table surviving.  On `tbl6`, which has two data
rows with only the second one bad, the whole extraction raises (`none`):
the good `TX` row is lost too. -/
theorem fallback_bad_cell_kills_whole_table :
    extract_table_manually (some tbl6) = none ∧ (rowsOf tbl6).length = 2 := by
  decide

/-- C6 amended: a non-numeric cell (after removing dollar signs) in a
non-`State` column is fatal for the ENTIRE table: the fallback parser
raises and returns nothing at all. -/
theorem fallback_nonnumeric_cell_fatal_for_table (t : HtmlTable)
    (df0 : DataFrame)
    (h0 : mkDataFrame (rowsOf t) (headersOf t) = some df0)
    (i j : Nat) (c s : String)
    (hc : df0.cols.get? j = some c) (hcs : c ≠ "State")
    (hcell : (df0.rows.get? i).bind (fun r => r.get? j) = some (Value.str s))
    (hq : parseFloat (removeDollar s) = none) :
    extract_table_manually (some t) = none := by
  cases hr : df0.rows.get? i with
  | none =>
    rw [hr] at hcell
    simp at hcell
  | some r =>
    simp only [hr, Option.some_bind] at hcell
    have hz := zip_get?_some df0.cols r j c (Value.str s) hc hcell
    have hcsb : (c == "State") = false := by
      simp [hcs]
    have hcc : convertCol c (Value.str s) = none := by
      simp [convertCol, hcsb, hq]
    have hrow : convertRow df0.cols r = none :=
      mapOpt_eq_none j (c, Value.str s) hz hcc
    have hrows : mapOpt (convertRow df0.cols) df0.rows = none :=
      mapOpt_eq_none i r hr hrow
    simp [extract_table_manually, h0, convertNumericCols, hrows]

/-- C6 amended witness: on `tbl6` (bad cell `"abc"` at row 1, column
`Regular`) the whole extraction returns `none`. -/
theorem fallback_nonnumeric_cell_fatal_for_table_witness :
    extract_table_manually (some tbl6) = none :=
  fallback_nonnumeric_cell_fatal_for_table tbl6
    ⟨["State", "Regular"],
      [[Value.str "TX", Value.str "$3.10"], [Value.str "CA", Value.str "abc"]]⟩
    (by decide) 1 1 "Regular" "abc" (by decide) (by decide) (by decide)
    (by decide)

/-- The concrete table exercising C10: two `<th>` headers, but the second
data row has a single cell. -/
def tbl10 : HtmlTable :=
  ⟨[[⟨CellTag.th, "State"⟩, ⟨CellTag.th, "Regular"⟩],
    [⟨CellTag.td, "TX"⟩, ⟨CellTag.td, "$3.10"⟩],
    [⟨CellTag.td, "CA"⟩]]⟩

/-- C10 counterexample: `tbl10` has 2 `<th>` elements while its second data
row has only 1 cell — by the claim the parser should raise, but it returns
a Price Table, padding the short row with a missing value. -/
theorem fallback_short_row_still_returns_table :
    extract_table_manually (some tbl10) =
      some ⟨["State", "Regular"],
        [[Value.str "TX", Value.num 310 2], [Value.str "CA", Value.null]]⟩ ∧
    (headersOf tbl10).length = 2 ∧
    ((rowsOf tbl10).get? 1).map List.length = some 1 := by
  decide

/-- C10 amended: the fallback parser raises when there is at least one data
row and the total `<th>` count differs from the MAXIMUM data-row cell
count (shorter rows are padded, so only the widest row is compared against
the header count). -/
theorem fallback_header_maxwidth_mismatch_fatal (t : HtmlTable)
    (hr : rowsOf t ≠ [])
    (hw : (headersOf t).length ≠ maxWidth (rowsOf t)) :
    extract_table_manually (some t) = none := by
  have h0 : mkDataFrame (rowsOf t) (headersOf t) = none := by
    simp [mkDataFrame, List.isEmpty_iff, hr, hw]
  simp [extract_table_manually, h0]

/-- The concrete table exercising the C10 amended claim: one `<th>`, but a
data row of width 2. -/
def tbl10w : HtmlTable :=
  ⟨[[⟨CellTag.th, "State"⟩],
    [⟨CellTag.td, "TX"⟩, ⟨CellTag.td, "$3.10"⟩]]⟩

/-- C10 amended witness: on `tbl10w` (1 header, widest data row of 2 cells)
the extraction raises. -/
theorem fallback_header_maxwidth_mismatch_fatal_witness :
    extract_table_manually (some tbl10w) = none :=
  fallback_header_maxwidth_mismatch_fatal tbl10w (by decide) (by decide)

/-- Apply `f` to the element at index `j`, leaving the rest unchanged. -/
def setAt (j : Nat) (f : Value → Value) : List Value → List Value
  | [] => []
  | v :: vs =>
    match j with
    | 0 => f v :: vs
    | j + 1 => v :: setAt j f vs

/-- `series.str.strip()` on one element: strings are stripped; anything
else (including `NaN`) comes out as `NaN` under the `.str` accessor. -/
def stripVal (v : Value) : Value :=
  match v with
  | Value.str s => Value.str (pytrim s)
  | Value.num _ _ => Value.null
  | Value.null => Value.null

/-- `df['State'] = df['State'].str.strip()`: in-place trim of the `State`
column's values. -/
def stripStateCol (df : DataFrame) : DataFrame :=
  ⟨df.cols, df.rows.map (setAt (df.cols.findIdx (fun c => c == "State")) stripVal)⟩

/-- The join key of a row: the value in its `State` column, if any. -/
def dfKey (cols : List String) (row : List Value) : Option Value :=
  row.get? (cols.findIdx (fun c => c == "State"))

/-- The non-key part of a right-table row: its values at every column not
named `State`. -/
def restrictRight (evCols : List String) (row : List Value) : List Value :=
  ((evCols.zip row).filter (fun p => !(p.1 == "State"))).map (fun p => p.2)

/-- One left row's contribution to `pd.merge(..., how='left')`: every
matching right row extends it; with no match it is padded with `NaN` in
each right-side non-key column.  pandas matches `NaN` keys to `NaN`, so
plain equality of key values is the faithful match relation. -/
def mergeOne (evCols : List String) (evRows : List (List Value))
    (gasCols : List String) (l : List Value) : List (List Value) :=
  match evRows.filter (fun r => decide (dfKey evCols r = dfKey gasCols l)) with
  | [] =>
    [l ++ List.replicate ((evCols.filter (fun c => !(c == "State"))).length)
        Value.null]
  | m :: ms =>
    (m :: ms).map (fun r => l ++ restrictRight evCols r)

/-- `pd.merge(gas, ev, on='State', how='left')`: left columns followed by
the right table's non-key columns; rows in left order, each expanded by
its matches. -/
def pd_merge_left (gas ev : DataFrame) : DataFrame :=
  ⟨gas.cols ++ ev.cols.filter (fun c => !(c == "State")),
    gas.rows.flatMap (mergeOne ev.cols ev.rows gas.cols)⟩

/-- `merge_data`: trims the `State` values of BOTH input frames in place
(a `KeyError` — `none` here — if either lacks a `State` column), then left
joins.  The result carries the two post-call input frames first, recording
the in-place mutation the caller observes, and the merged frame last. -/
def merge_data (gas ev : DataFrame) :
    Option (DataFrame × DataFrame × DataFrame) :=
  if "State" ∈ gas.cols ∧ "State" ∈ ev.cols then
    some (stripStateCol gas, stripStateCol ev,
      pd_merge_left (stripStateCol gas) (stripStateCol ev))
  else none

theorem setAt_length (f : Value → Value) :
    ∀ (j : Nat) (l : List Value), (setAt j f l).length = l.length := by
  intro j l
  induction l generalizing j with
  | nil => cases j <;> rfl
  | cons v vs ih =>
    cases j with
    | zero => rfl
    | succ n =>
      show (v :: setAt n f vs).length = (v :: vs).length
      simp [ih n]

theorem stripStateCol_wf (df : DataFrame) (h : df.WF) : (stripStateCol df).WF := by
  intro r hr
  simp only [stripStateCol, List.mem_map] at hr
  obtain ⟨r0, hr0, rfl⟩ := hr
  simpa [setAt_length] using h r0 hr0

theorem flatMap_const_one_length {α β : Type} (l : List α) (f : α → List β)
    (h : ∀ a ∈ l, (f a).length = 1) : (l.flatMap f).length = l.length := by
  induction l with
  | nil => rfl
  | cons x xs ih =>
    simp only [List.flatMap_cons, List.length_append, h x (by simp)]
    rw [ih (fun a ha => h a (by simp [ha]))]
    simp only [List.length_cons]
    omega

theorem filter_len_le_one_of_nodup_map {α β : Type} [DecidableEq β] (f : α → β) :
    ∀ (l : List α), (l.map f).Nodup → ∀ b : β,
      (l.filter (fun a => decide (f a = b))).length ≤ 1 := by
  intro l
  induction l with
  | nil =>
    intro _ b
    simp
  | cons x xs ih =>
    intro hnd b
    simp only [List.map_cons, List.nodup_cons] at hnd
    by_cases hx : f x = b
    · have hnil : xs.filter (fun a => decide (f a = b)) = [] := by
        rw [List.filter_eq_nil_iff]
        intro a ha
        simp only [decide_eq_true_eq]
        intro hab
        exact hnd.1 (List.mem_map.mpr ⟨a, ha, by rw [hab, hx]⟩)
      simp [List.filter_cons, hx, hnil]
    · simp only [List.filter_cons, decide_eq_true_eq, hx, if_false]
      exact ih hnd.2 b

theorem mergeOne_length (evCols gasCols : List String)
    (evRows : List (List Value))
    (hnd : (evRows.map (dfKey evCols)).Nodup) (l : List Value) :
    (mergeOne evCols evRows gasCols l).length = 1 := by
  unfold mergeOne
  cases hf : evRows.filter (fun r => decide (dfKey evCols r = dfKey gasCols l)) with
  | nil => rfl
  | cons m ms =>
    have hle :=
      filter_len_le_one_of_nodup_map (dfKey evCols) evRows hnd (dfKey gasCols l)
    rw [hf] at hle
    simp only [List.length_cons, List.length_map] at hle ⊢
    omega

/-- Left table for the C2 counterexample: one `CA` row. -/
def gasDup : DataFrame :=
  ⟨["State", "Regular"], [[Value.str "CA", Value.num 450 2]]⟩

/-- Right table for the C2 counterexample: two rows with the SAME region
key `CA`. -/
def evDup : DataFrame :=
  ⟨["State", "Cost/kWh"],
    [[Value.str "CA", Value.num 30 2], [Value.str "CA", Value.num 31 2]]⟩

/-- C2 counterexample: with a duplicated key in the right table, the left
join duplicates the matching left row — the merged output has 2 rows while
the left table has 1, so `len(merge(left, right)) == len(left)` does not
hold for every right table. -/
theorem merge_dup_right_keys_inflates_length :
    merge_data gasDup evDup =
      some (gasDup, evDup,
        ⟨["State", "Regular", "Cost/kWh"],
          [[Value.str "CA", Value.num 450 2, Value.num 30 2],
           [Value.str "CA", Value.num 450 2, Value.num 31 2]]⟩) ∧
    gasDup.rows.length = 1 ∧
    (pd_merge_left (stripStateCol gasDup) (stripStateCol evDup)).rows.length = 2 := by
  decide

/-- C2 amended: when the right table's region keys are pairwise distinct —
the Price Table invariant — the left join has exactly as many rows as the
left table, whatever the right rows contain. -/
theorem merge_left_join_length (gas ev g e m : DataFrame)
    (h : merge_data gas ev = some (g, e, m))
    (hnd : (e.rows.map (dfKey e.cols)).Nodup) :
    m.rows.length = gas.rows.length := by
  unfold merge_data at h
  split at h
  · cases h
    show (pd_merge_left (stripStateCol gas) (stripStateCol ev)).rows.length =
      gas.rows.length
    unfold pd_merge_left
    rw [flatMap_const_one_length]
    · simp [stripStateCol]
    · intro a _
      exact mergeOne_length _ _ _ hnd a
  · exact Option.noConfusion h

/-- Left table for the C2 witness. -/
def gasW2 : DataFrame :=
  ⟨["State", "Regular"], [[Value.str "CA", Value.num 450 2]]⟩

/-- Right table for the C2 witness: unique region keys. -/
def evW2 : DataFrame :=
  ⟨["State", "Cost/kWh"],
    [[Value.str "CA", Value.num 30 2], [Value.str "TX", Value.num 28 2]]⟩

/-- C2 amended witness: on the concrete pair with unique right keys, the
merged row count equals the left row count. -/
theorem merge_left_join_length_witness :
    (pd_merge_left (stripStateCol gasW2) (stripStateCol evW2)).rows.length =
      gasW2.rows.length :=
  merge_left_join_length gasW2 evW2 (stripStateCol gasW2) (stripStateCol evW2)
    (pd_merge_left (stripStateCol gasW2) (stripStateCol evW2)) (by decide)
    (by decide)

theorem findIdx_append_left {α : Type} (p : α → Bool) :
    ∀ (l₁ l₂ : List α), l₁.findIdx p < l₁.length →
      (l₁ ++ l₂).findIdx p = l₁.findIdx p := by
  intro l₁
  induction l₁ with
  | nil =>
    intro l₂ h
    simp at h
  | cons x xs ih =>
    intro l₂ h
    cases hpx : p x with
    | true => simp [List.findIdx_cons, hpx]
    | false =>
      rw [List.findIdx_cons, hpx] at h ⊢
      simp only [List.cons_append, List.findIdx_cons, hpx, cond_false]
      rw [ih l₂ (by simpa using h)]

theorem dfKey_append (gasCols : List String) (l s : List Value)
    (hlen : l.length = gasCols.length) (hmem : "State" ∈ gasCols) :
    dfKey gasCols (l ++ s) = dfKey gasCols l := by
  unfold dfKey
  have hidx : gasCols.findIdx (fun c => c == "State") < gasCols.length :=
    List.findIdx_lt_length_of_exists ⟨"State", hmem, by simp⟩
  exact List.get?_append (hlen ▸ hidx)

theorem mergeOne_shape (evCols gasCols : List String)
    (evRows : List (List Value)) (l mr : List Value)
    (h : mr ∈ mergeOne evCols evRows gasCols l) : ∃ s, mr = l ++ s := by
  unfold mergeOne at h
  cases hf : evRows.filter (fun r => decide (dfKey evCols r = dfKey gasCols l)) with
  | nil =>
    rw [hf] at h
    simp only [List.mem_singleton] at h
    exact ⟨_, h⟩
  | cons m ms =>
    rw [hf] at h
    simp only [List.mem_map] at h
    obtain ⟨r, _, rfl⟩ := h
    exact ⟨_, rfl⟩

/-- C3: rows of the left table whose key matches nothing in the right table
survive in the merged output, padded with a missing value for every
right-side (EV) column; and every merged row's key is the key of some left
row, so right-only regions never appear.  (`g` and `e` are the two input
frames as `merge_data` leaves them, i.e. with trimmed `State` values.) -/
theorem merge_left_join_unmatched (gas ev g e m : DataFrame)
    (h : merge_data gas ev = some (g, e, m)) (hwf : gas.WF) :
    (∀ r ∈ g.rows, (∀ r' ∈ e.rows, dfKey e.cols r' ≠ dfKey g.cols r) →
        (r ++ List.replicate
            ((e.cols.filter (fun c => !(c == "State"))).length) Value.null) ∈
          m.rows) ∧
    (∀ mr ∈ m.rows, dfKey m.cols mr ∈ g.rows.map (dfKey g.cols)) := by
  unfold merge_data at h
  split at h
  case isFalse => exact Option.noConfusion h
  case isTrue hcond =>
  cases h
  have hwf' : (stripStateCol gas).WF := stripStateCol_wf gas hwf
  constructor
  · intro r hr hno
    apply List.mem_flatMap.mpr
    refine ⟨r, hr, ?_⟩
    have hnil : (stripStateCol ev).rows.filter
        (fun r' => decide (dfKey (stripStateCol ev).cols r' =
          dfKey (stripStateCol gas).cols r)) = [] := by
      rw [List.filter_eq_nil_iff]
      intro a ha
      simp only [decide_eq_true_eq]
      exact hno a ha
    unfold mergeOne
    rw [hnil]
    simp
  · intro mr hmr
    obtain ⟨l, hl, hin⟩ := List.mem_flatMap.mp hmr
    obtain ⟨s, rfl⟩ := mergeOne_shape _ _ _ _ _ hin
    apply List.mem_map.mpr
    refine ⟨l, hl, ?_⟩
    symm
    show dfKey (pd_merge_left (stripStateCol gas) (stripStateCol ev)).cols (l ++ s) =
      dfKey (stripStateCol gas).cols l
    unfold pd_merge_left dfKey
    have hmem : "State" ∈ gas.cols := hcond.1
    have hidx : gas.cols.findIdx (fun c => c == "State") < gas.cols.length :=
      List.findIdx_lt_length_of_exists ⟨"State", hmem, by simp⟩
    have hcols : (stripStateCol gas).cols = gas.cols := rfl
    rw [hcols, findIdx_append_left _ _ _ hidx]
    exact List.get?_append ((hwf' l hl) ▸ hidx)
  

/-- Left table for the C3 witness: the spec's `TX` scenario. -/
def gasW3 : DataFrame :=
  ⟨["State", "Regular"], [[Value.str "TX", Value.num 310 2]]⟩

/-- Right table for the C3 witness: empty. -/
def evW3 : DataFrame :=
  ⟨["State", "Cost/kWh"], []⟩

/-- C3 witness: merging the `TX` table with an empty EV table keeps the
`TX` row, padded with one missing EV value. -/
theorem merge_left_join_unmatched_witness :
    ([Value.str "TX", Value.num 310 2] ++ List.replicate 1 Value.null) ∈
      (pd_merge_left (stripStateCol gasW3) (stripStateCol evW3)).rows :=
  (merge_left_join_unmatched gasW3 evW3 (stripStateCol gasW3)
      (stripStateCol evW3)
      (pd_merge_left (stripStateCol gasW3) (stripStateCol evW3)) (by decide)
      (by decide)).1
    [Value.str "TX", Value.num 310 2] (by decide) (by decide)

/-- Pre-call left table for the C8 counterexample: its `State` value
carries surrounding whitespace. -/
def gasMut : DataFrame :=
  ⟨["State", "Regular"], [[Value.str " CA ", Value.num 450 2]]⟩

/-- Right table for the C8 counterexample. -/
def evMut : DataFrame :=
  ⟨["State", "Cost/kWh"], [[Value.str "CA", Value.num 30 2]]⟩

/-- The left table as the caller finds it AFTER `merge_data`: trimmed. -/
def gasMutAfter : DataFrame :=
  ⟨["State", "Regular"], [[Value.str "CA", Value.num 450 2]]⟩

/-- C8 counterexample: `merge_data` assigns
`gas_df['State'] = gas_df['State'].str.strip()`, mutating the CALLER's
frame in place: after the call the left input differs from what was passed
in, so merge_data does not leave its inputs unchanged. -/
theorem merge_data_mutates_its_input :
    merge_data gasMut evMut =
      some (gasMutAfter, evMut,
        ⟨["State", "Regular", "Cost/kWh"],
          [[Value.str "CA", Value.num 450 2, Value.num 30 2]]⟩) ∧
    gasMutAfter ≠ gasMut := by
  decide

theorem setAt_get?_self (f : Value → Value) :
    ∀ (j : Nat) (l : List Value), (setAt j f l).get? j = (l.get? j).map f := by
  intro j l
  induction l generalizing j with
  | nil => cases j <;> rfl
  | cons v vs ih =>
    cases j with
    | zero => rfl
    | succ n =>
      show (v :: setAt n f vs).get? (n + 1) = ((v :: vs).get? (n + 1)).map f
      simpa using ih n

theorem setAt_get?_ne (f : Value → Value) :
    ∀ (i j : Nat) (l : List Value), j ≠ i →
      (setAt i f l).get? j = l.get? j := by
  intro i j l
  induction l generalizing i j with
  | nil =>
    intro _
    cases i <;> rfl
  | cons v vs ih =>
    intro hne
    cases i with
    | zero =>
      cases j with
      | zero => exact absurd rfl hne
      | succ p => rfl
    | succ n =>
      cases j with
      | zero => rfl
      | succ p =>
        show (v :: setAt n f vs).get? (p + 1) = (v :: vs).get? (p + 1)
        simpa using ih n p (fun hh => hne (by rw [hh]))

/-- `post` is `pre` with exactly its `State` column trimmed in place: same
columns, same row count, every cell outside the `State` column untouched,
and every `State` cell the trim (`.str.strip()`) of the original. -/
def TrimmedInPlace (post pre : DataFrame) : Prop :=
  post.cols = pre.cols ∧
  post.rows.length = pre.rows.length ∧
  (∀ i j, j ≠ pre.cols.findIdx (fun c => c == "State") →
    (post.rows.get? i).bind (fun r => r.get? j) =
      (pre.rows.get? i).bind (fun r => r.get? j)) ∧
  (∀ i, (post.rows.get? i).bind
      (fun r => r.get? (pre.cols.findIdx (fun c => c == "State"))) =
    ((pre.rows.get? i).bind
      (fun r => r.get? (pre.cols.findIdx (fun c => c == "State")))).map
      stripVal)

theorem stripStateCol_trimmedInPlace (df : DataFrame) :
    TrimmedInPlace (stripStateCol df) df := by
  refine ⟨rfl, by simp [stripStateCol], ?_, ?_⟩
  · intro i j hj
    show ((df.rows.map
        (setAt (df.cols.findIdx (fun c => c == "State")) stripVal)).get? i).bind
        (fun r => r.get? j) = _
    rw [List.get?_map]
    cases hr : df.rows.get? i with
    | none => rfl
    | some r =>
      simp only [Option.map_some', Option.some_bind]
      exact setAt_get?_ne stripVal _ j r hj
  · intro i
    show ((df.rows.map
        (setAt (df.cols.findIdx (fun c => c == "State")) stripVal)).get? i).bind
        (fun r => r.get? (df.cols.findIdx (fun c => c == "State"))) = _
    rw [List.get?_map]
    cases hr : df.rows.get? i with
    | none => rfl
    | some r =>
      simp only [Option.map_some', Option.some_bind]
      exact setAt_get?_self stripVal _ r

/-- C8 amended: `merge_data` DOES mutate its two inputs, but the mutation
is exactly the in-place trim of each frame's `State` column — columns,
row count and all non-`State` cells are untouched, and each `State` cell
becomes the trim of the original; the merged result is a fresh frame
built from the trimmed inputs. -/
theorem merge_data_mutation_is_exactly_trim (gas ev g e m : DataFrame)
    (h : merge_data gas ev = some (g, e, m)) :
    TrimmedInPlace g gas ∧ TrimmedInPlace e ev ∧ m = pd_merge_left g e := by
  unfold merge_data at h
  split at h
  · cases h
    exact ⟨stripStateCol_trimmedInPlace gas, stripStateCol_trimmedInPlace ev,
      rfl⟩
  · exact Option.noConfusion h

/-- C8 amended witness: the theorem instantiated at the concrete pair
`(gasMut, evMut)` whose left `State` value carries whitespace. -/
theorem merge_data_mutation_is_exactly_trim_witness :
    TrimmedInPlace (stripStateCol gasMut) gasMut ∧
    TrimmedInPlace (stripStateCol evMut) evMut ∧
    pd_merge_left (stripStateCol gasMut) (stripStateCol evMut) =
      pd_merge_left (stripStateCol gasMut) (stripStateCol evMut) :=
  merge_data_mutation_is_exactly_trim gasMut evMut
    (stripStateCol gasMut) (stripStateCol evMut)
    (pd_merge_left (stripStateCol gasMut) (stripStateCol evMut))
    (by decide)

/-- Decimal string of the number `m / 10^k`, modelling Python `str(float)`
for the plain decimals the scraper produces (e.g. `3.459`, `3.0`). -/
def numRepr (m : Int) (k : Nat) : String :=
  let ds0 := Nat.toDigits 10 m.natAbs
  let ds := if ds0.length ≤ k then List.replicate (k + 1 - ds0.length) '0' ++ ds0 else ds0
  let intPart := ds.take (ds.length - k)
  let fracPart := if k = 0 then ['0'] else ds.drop (ds.length - k)
  String.mk ((if m < 0 then ['-'] else []) ++ intPart ++ '.' :: fracPart)

/-- Python `str(value)`: strings unchanged, numbers as decimal strings,
missing values as `"nan"`. -/
def valueToString (v : Value) : String :=
  match v with
  | Value.str s => s
  | Value.num m k => numRepr m k
  | Value.null => "nan"

/-- `series.astype(str).str.strip()` on one element. -/
def astypeStrTrim (v : Value) : Value :=
  Value.str (pytrim (valueToString v))

/-- The primary path's column normalization (lines 52-61): trim the column
headers; if a (trimmed) column is literally named `State`, trim that
column's values in place; otherwise, when there is at least one column,
rename the first column to `State` and trim its values. -/
def normalize_primary (df : DataFrame) : DataFrame :=
  if "State" ∈ df.cols.map pytrim then
    ⟨df.cols.map pytrim,
      df.rows.map
        (setAt ((df.cols.map pytrim).findIdx (fun c => c == "State"))
          astypeStrTrim)⟩
  else
    match df.cols.map pytrim with
    | [] => ⟨[], df.rows⟩
    | _ :: rest => ⟨"State" :: rest, df.rows.map (setAt 0 astypeStrTrim)⟩

/-- `extract_table_data`: `pd.read_html` either raises (`none`) or yields
the document's list of tables.  With at least one table the first one is
normalized and returned; `read_html` raising, or yielding zero tables
(the explicit `ValueError`), is caught and the manual fallback runs on the
same document. -/
def extract_table_data (parsed : Option (List DataFrame))
    (doc : Option HtmlTable) : Option DataFrame :=
  match parsed with
  | some (df :: _) => some (normalize_primary df)
  | some [] => extract_table_manually doc
  | none => extract_table_manually doc

/-- C7: on the primary path, a first table with at least one column is
normalized and returned: its headers are the trimmed originals (with the
first renamed to `State` when no trimmed header equals `State`), the
canonical `State` column is always present, the row count is preserved,
and every value in the `State` column is a string trimmed from the
original cell (`astype(str).str.strip()`). -/
theorem extract_primary_canonical_state_column (df : DataFrame)
    (ts : List DataFrame) (doc : Option HtmlTable)
    (hne : df.cols ≠ []) (hwf : df.WF) :
    ∃ out, extract_table_data (some (df :: ts)) doc = some out ∧
      "State" ∈ out.cols ∧
      (out.cols = df.cols.map pytrim ∨
        out.cols = "State" :: (df.cols.map pytrim).tail) ∧
      out.rows.length = df.rows.length ∧
      (∀ r ∈ out.rows, ∃ v0 : Value,
        r.get? (out.cols.findIdx (fun c => c == "State")) =
          some (astypeStrTrim v0)) := by
  refine ⟨normalize_primary df, rfl, ?_⟩
  unfold normalize_primary
  by_cases hmem : "State" ∈ df.cols.map pytrim
  · rw [if_pos hmem]
    have hidx : (df.cols.map pytrim).findIdx (fun c => c == "State") <
        (df.cols.map pytrim).length :=
      List.findIdx_lt_length_of_exists ⟨"State", hmem, by simp⟩
    refine ⟨hmem, Or.inl rfl, by simp, ?_⟩
    intro r hr
    simp only [List.mem_map] at hr
    obtain ⟨r0, hr0, rfl⟩ := hr
    have hlen : (df.cols.map pytrim).findIdx (fun c => c == "State") < r0.length := by
      rw [hwf r0 hr0]
      simpa using hidx
    cases hv : r0.get? ((df.cols.map pytrim).findIdx (fun c => c == "State")) with
    | none =>
      rw [List.get?_eq_none] at hv
      omega
    | some v0 =>
      exact ⟨v0, by rw [setAt_get?_self, hv]; rfl⟩
  · rw [if_neg hmem]
    have hmapne : df.cols.map pytrim ≠ [] := by
      simpa using hne
    cases hcols : df.cols.map pytrim with
    | nil => exact absurd hcols hmapne
    | cons c rest =>
      have hfind : (("State" : String) :: rest).findIdx (fun x => x == "State") = 0 := by
        simp [List.findIdx_cons]
      refine ⟨by simp, Or.inr rfl, by simp, ?_⟩
      intro r hr
      simp only [List.mem_map] at hr
      obtain ⟨r0, hr0, rfl⟩ := hr
      have hlen0 : 0 < r0.length := by
        rw [hwf r0 hr0]
        have : df.cols.length = (df.cols.map pytrim).length := by simp
        rw [this, hcols]
        simp
      cases hv : r0.get? 0 with
      | none =>
        rw [List.get?_eq_none] at hv
        omega
      | some v0 =>
        refine ⟨v0, ?_⟩
        rw [hfind, setAt_get?_self, hv]
        rfl

/-- A concrete first table for the C7 witness: untrimmed headers, no
`State` column, an untrimmed region value. -/
def dfW7 : DataFrame :=
  ⟨[" Region ", "Regular"], [[Value.str " TX ", Value.num 310 2]]⟩

/-- C7 witness: the theorem instantiated at `dfW7`. -/
theorem extract_primary_canonical_state_column_witness :
    ∃ out, extract_table_data (some (dfW7 :: [])) none = some out ∧
      "State" ∈ out.cols ∧
      (out.cols = dfW7.cols.map pytrim ∨
        out.cols = "State" :: (dfW7.cols.map pytrim).tail) ∧
      out.rows.length = dfW7.rows.length ∧
      (∀ r ∈ out.rows, ∃ v0 : Value,
        r.get? (out.cols.findIdx (fun c => c == "State")) =
          some (astypeStrTrim v0)) :=
  extract_primary_canonical_state_column dfW7 [] none (by decide) (by decide)

/-- `pd.to_numeric(..., errors='coerce')` on one element: numeric strings
parse, anything unparseable becomes missing, numbers pass through. -/
def toNumericCoerce (v : Value) : Value :=
  match v with
  | Value.str s =>
    match parseFloat s with
    | some p => Value.num p.1 p.2
    | none => Value.null
  | Value.num m k => Value.num m k
  | Value.null => Value.null

/-- The EV-specific cleanup in `scrape_aaa_ev_prices`: coerce an existing
`Cost/kWh` column to numeric, non-fatal. -/
def coerceCostKwh (df : DataFrame) : DataFrame :=
  if "Cost/kWh" ∈ df.cols then
    ⟨df.cols,
      df.rows.map
        (setAt (df.cols.findIdx (fun c => c == "Cost/kWh")) toNumericCoerce)⟩
  else df

/-- Everything the outside world would answer during one run: the two GET
responses, the two parses of the fetched pages (structured and manual),
and the gist PATCH outcome. -/
structure Oracle where
  gas : FetchResult
  gasParsed : Option (List DataFrame)
  gasDoc : Option HtmlTable
  ev : FetchResult
  evParsed : Option (List DataFrame)
  evDoc : Option HtmlTable
  patch : PatchOutcome
deriving DecidableEq, Repr

/-- The 403-specific diagnostic line printed by `main`. -/
def blockedMsg : String := "The website is blocking the request."

/-- Diagnostics of `main`'s `HTTPError` handler: the error line, plus the
bot-blocking guidance exactly when the status is 403. -/
def httpErrorLogs (status : Nat) : List Event :=
  Event.log "HTTP Error" ::
    (if status == 403 then
      [Event.log blockedMsg,
        Event.log "Try increasing the crawl delay or using different headers."]
    else [])

/-- `main`: fetch gas page, extract; fetch EV page (after the fixed
courtesy delay), extract and coerce; merge; publish via the (effective)
`update_github_gist`.  A raised `HTTPError` lands in the dedicated
handler (`httpErrorLogs`); any other raised error lands in the generic
handler.  Returns the event trace and the raw URL reported on success. -/
def mainRun (o : Oracle) (token : Option String) : List Event × Option String :=
  match (make_respectful_request gasUrl o.gas).2 with
  | Except.error st => ([Event.get gasUrl] ++ httpErrorLogs st, none)
  | Except.ok _ =>
    match extract_table_data o.gasParsed o.gasDoc with
    | none => ([Event.get gasUrl, Event.log "An unexpected error occurred"], none)
    | some gasDf =>
      match (make_respectful_request evUrl o.ev).2 with
      | Except.error st =>
        ([Event.get gasUrl, Event.get evUrl] ++ httpErrorLogs st, none)
      | Except.ok _ =>
        match extract_table_data o.evParsed o.evDoc with
        | none =>
          ([Event.get gasUrl, Event.get evUrl,
            Event.log "An unexpected error occurred"], none)
        | some evDf =>
          match merge_data gasDf (coerceCostKwh evDf) with
          | none =>
            ([Event.get gasUrl, Event.get evUrl,
              Event.log "An unexpected error occurred"], none)
          | some (_, _, merged) =>
            ([Event.get gasUrl, Event.get evUrl, Event.patchGist] ++
              (match (update_github_gist merged token o.patch).2 with
                | some _ => [Event.log "SCRAPING PROCESS COMPLETE!"]
                | none => [Event.log "Failed to update Gist. Check the error above."]),
              (update_github_gist merged token o.patch).2)

/-- C9: when a fetch comes back 403 — either the first fetch, or the first
fetch and extraction succeed and the second fetch comes back 403 — the run
ends with no gist PATCH ever attempted, the diagnostics include the
site-is-blocking message, and no URL is produced. -/
theorem main_403_aborts_before_publish (o : Oracle) (token : Option String)
    (h : o.gas.status = 403 ∨
      (¬(400 ≤ o.gas.status ∧ o.gas.status < 600) ∧
        (extract_table_data o.gasParsed o.gasDoc).isSome ∧
        o.ev.status = 403)) :
    Event.patchGist ∉ (mainRun o token).1 ∧
    Event.log blockedMsg ∈ (mainRun o token).1 ∧
    (mainRun o token).2 = none := by
  rcases h with h403 | ⟨hok, hsome, hev⟩
  · have hgas : (make_respectful_request gasUrl o.gas).2 = Except.error 403 := by
      simp only [make_respectful_request]
      rw [h403, if_pos (by norm_num)]
    have hmain : mainRun o token =
        ([Event.get gasUrl] ++ httpErrorLogs 403, none) := by
      simp only [mainRun, hgas]
    rw [hmain]
    decide
  · have hgas : (make_respectful_request gasUrl o.gas).2 = Except.ok o.gas.body := by
      simp only [make_respectful_request]
      rw [if_neg hok]
    cases hex : extract_table_data o.gasParsed o.gasDoc with
    | none =>
      rw [hex] at hsome
      simp at hsome
    | some gasDf =>
      have hev' : (make_respectful_request evUrl o.ev).2 = Except.error 403 := by
        simp only [make_respectful_request]
        rw [hev, if_pos (by norm_num)]
      have hmain : mainRun o token =
          ([Event.get gasUrl, Event.get evUrl] ++ httpErrorLogs 403, none) := by
        simp only [mainRun, hgas, hex, hev']
      rw [hmain]
      decide

/-- The concrete oracle for the C9 witness: the first fetch answers 403. -/
def oracle403 : Oracle :=
  ⟨⟨403, "Forbidden"⟩, none, none, ⟨200, ""⟩, none, none, PatchOutcome.netError⟩

/-- C9 witness: the theorem instantiated at `oracle403` with no token. -/
theorem main_403_aborts_before_publish_witness :
    Event.patchGist ∉ (mainRun oracle403 none).1 ∧
    Event.log blockedMsg ∈ (mainRun oracle403 none).1 ∧
    (mainRun oracle403 none).2 = none :=
  main_403_aborts_before_publish oracle403 none (Or.inl rfl)
